import Mathlib

/-!
Verification of `new_alarm_cond.c`, a pthreads alarm scheduler with
per-group display workers.  The C data structures and routines are
shallowly embedded: the singly linked alarm list becomes a `List Alarm`
(head = front of the list), in-place pointer mutation becomes functions
returning the new list, `printf` confirmations and notices become
explicit result values, and semaphore operations become explicit state
transitions (blocking is `Option.none`).
-/

/-- The `alarm_tag` structure of the C source: requested duration
`seconds`, absolute expiry `time` (seconds from the epoch), a `message`,
the client ids and the `active` flag (C `int` 0/1, modelled as `Bool`). -/
structure Alarm where
  seconds : Int
  time : Int
  message : String
  alarm_id : Int
  group_id : Int
  active : Bool
deriving Repr, DecidableEq

/-- The `group_t` structure: group id, worker thread handle (opaque,
modelled as an `Int`), and the private snapshot `display_list`. -/
structure group_t where
  group_id : Int
  thread_id : Int
  display_list : List Alarm
deriving Repr, DecidableEq

/-- The list-splicing loop shared by `alarm_insert` and the inline
insertion in `main`'s Start_Alarm branch (src lines 114-120 and
480-486): walk the list while `next->time < alarm->time`, splice the
new alarm before the first entry whose expiry is not less than its own. -/
def insertSorted (a : Alarm) : List Alarm → List Alarm
  | [] => [a]
  | b :: rest => if b.time < a.time then b :: insertSorted a rest else a :: b :: rest

/-- Result of an insertion, carrying the registry together with the
`current_alarm` sentinel and whether `pthread_cond_signal` was issued. -/
structure InsertResult where
  registry : List Alarm
  current_alarm : Int
  signaled : Bool
deriving Repr, DecidableEq

/-- The `alarm_insert` routine (src lines 103-130): splice in order,
then, if `current_alarm == 0 || alarm->time < current_alarm`, update
`current_alarm` to the new expiry and signal the condition variable. -/
def alarm_insert (a : Alarm) (registry : List Alarm) (current_alarm : Int) : InsertResult :=
  let r := insertSorted a registry
  if current_alarm = 0 ∨ a.time < current_alarm then
    { registry := r, current_alarm := a.time, signaled := true }
  else
    { registry := r, current_alarm := current_alarm, signaled := false }

/-- The inline insertion performed by `main`'s Start_Alarm branch (src
lines 478-491): the same splicing loop, but with no `current_alarm`
update and no `pthread_cond_signal` afterwards. -/
def main_start_insert (a : Alarm) (registry : List Alarm) (current_alarm : Int) : InsertResult :=
  { registry := insertSorted a registry, current_alarm := current_alarm, signaled := false }

/-- The `find_alarm` helper (src lines 619-639): return the first list
entry with the given `alarm_id`, or `NULL` (`none`). -/
def find_alarm (id : Int) : List Alarm → Option Alarm
  | [] => none
  | a :: rest => if a.alarm_id = id then some a else find_alarm id rest

/-- The `remove_alarm` helper (src lines 642-668): unlink and free the
first entry with the given id, returning `true`; `false` (with a "not
found" message) otherwise.  The returned list is the updated registry. -/
def remove_alarm (id : Int) : List Alarm → Bool × List Alarm
  | [] => (false, [])
  | a :: rest =>
    if a.alarm_id = id then (true, rest)
    else
      let res := remove_alarm id rest
      (res.1, a :: res.2)

/-- Outcome of `cancel_alarm`: the id was not found; or the confirmation
`printf` ran with a live alarm; or the confirmation path reached
`alarm->alarm_id` with `alarm == NULL` (a null-pointer dereference). -/
inductive CancelOutcome where
  | notFound : CancelOutcome
  | confirmed : Alarm → CancelOutcome
  | nullDeref : CancelOutcome
deriving Repr, DecidableEq

/-- The `cancel_alarm` routine (src lines 579-584): call `remove_alarm`;
when it succeeds, call `find_alarm` on the (already updated) list and
print the confirmation through the returned pointer.  A `none` result of
that lookup means the `printf` dereferences `NULL`. -/
def cancel_alarm (id : Int) (registry : List Alarm) : List Alarm × CancelOutcome :=
  let res := remove_alarm id registry
  if res.1 then
    match find_alarm id res.2 with
    | some a => (res.2, CancelOutcome.confirmed a)
    | none => (res.2, CancelOutcome.nullDeref)
  else
    (res.2, CancelOutcome.notFound)

/-- The `suspend_alarm` routine (src lines 587-595): `find_alarm`, and
if the node exists and is active, clear its `active` flag in place and
print the confirmation (`true`); otherwise print the "Not Found or
Already Suspended" notice (`false`). -/
def suspend_alarm (id : Int) : List Alarm → List Alarm × Bool
  | [] => ([], false)
  | a :: rest =>
    if a.alarm_id = id then
      if a.active then ({ a with active := false } :: rest, true)
      else (a :: rest, false)
    else
      let res := suspend_alarm id rest
      (a :: res.1, res.2)

/-- The `reactivate_alarm` routine (src lines 598-606): `find_alarm`,
and if the node exists and is inactive, set its `active` flag in place
(`true`); otherwise print the "Not Found or Already Active" notice
(`false`). -/
def reactivate_alarm (id : Int) : List Alarm → List Alarm × Bool
  | [] => ([], false)
  | a :: rest =>
    if a.alarm_id = id then
      if a.active then (a :: rest, false)
      else ({ a with active := true } :: rest, true)
    else
      let res := reactivate_alarm id rest
      (a :: res.1, res.2)

/-- The Change_Alarm branch of `main` (src lines 494-521): walk the
list; at the first entry with the given id, overwrite `group_id`,
`seconds`, `time := now + seconds` and `message` in place and break
(`true`); if the walk falls off the end, print "not found" (`false`).
No re-sorting is performed. -/
def change_alarm (id gid secs : Int) (msg : String) (now : Int) :
    List Alarm → List Alarm × Bool
  | [] => ([], false)
  | a :: rest =>
    if a.alarm_id = id then
      ({ a with group_id := gid, seconds := secs, time := now + secs, message := msg } :: rest,
       true)
    else
      let res := change_alarm id gid secs msg now rest
      (a :: res.1, res.2)

/-- The ascending-expiry ordering invariant of the alarm list, as a
decidable check: each entry's `time` is at most the next entry's. -/
def sortedByTime : List Alarm → Bool
  | [] => true
  | [_] => true
  | a :: b :: rest => decide (a.time ≤ b.time) && sortedByTime (b :: rest)

/-- One pass of the `alarm_group_display_removal` reaper loop (src lines
380-415) as the C actually executes: the condition
`if(current_group->display_list = NULL)` is an assignment, so it stores
`NULL` into `display_list` and then evaluates to `NULL`, i.e. false.
Hence every group's snapshot is overwritten with the empty list and the
cancel/unlink/free branch is never taken. -/
def alarm_group_display_removal_pass : List group_t → List group_t
  | [] => []
  | g :: rest => { g with display_list := [] } :: alarm_group_display_removal_pass rest

-- Concrete values used by the closed demonstration theorems.

/-- A concrete alarm with expiry 50. -/
def alarmEarly : Alarm :=
  { seconds := 50, time := 50, message := "early", alarm_id := 7, group_id := 1, active := true }

/-- A concrete alarm with id 1 and expiry 10. -/
def alarmOne : Alarm :=
  { seconds := 10, time := 10, message := "one", alarm_id := 1, group_id := 1, active := true }

/-- A concrete alarm with id 2 and expiry 20. -/
def alarmTwo : Alarm :=
  { seconds := 20, time := 20, message := "two", alarm_id := 2, group_id := 1, active := true }

/-- A group record with an empty snapshot. -/
def groupEmpty : group_t := { group_id := 1, thread_id := 11, display_list := [] }

/-- A group record with a non-empty snapshot. -/
def groupFull : group_t := { group_id := 2, thread_id := 12, display_list := [alarmOne] }

/-- Claim C1: the Start_Alarm command path, inserting an alarm whose
expiry 50 is earlier than the tracked deadline 100 the Scheduler sleeps
on, must update `current_alarm` to 50 and signal the condition variable.
The inline insertion in `main` does neither (it only splices), although
`alarm_insert` — which this path does not call — does exactly that at
the same input.  This contradicts the source file's own header comment
("If the main thread enters an earlier timeout, it signals the
condition variable"). -/
theorem C1_start_path_never_wakes_scheduler :
    main_start_insert alarmEarly [] 100 =
      { registry := [alarmEarly], current_alarm := 100, signaled := false } ∧
    alarm_insert alarmEarly [] 100 =
      { registry := [alarmEarly], current_alarm := 50, signaled := true } := by
  constructor <;> rfl

/-- Claim C2: with the sorted registry `[alarmOne (expiry 10),
alarmTwo (expiry 20)]`, Change_Alarm on id 2 at time 2 with 3 seconds
rewrites that entry's expiry to 5 in place, leaving the list
`[expiry 10, expiry 5]`: the ascending-expiry invariant is broken and
never re-established, contrary to the claim. -/
theorem C2_change_alarm_breaks_ordering :
    sortedByTime [alarmOne, alarmTwo] = true ∧
    (change_alarm 2 1 3 "m" 2 [alarmOne, alarmTwo]).2 = true ∧
    sortedByTime (change_alarm 2 1 3 "m" 2 [alarmOne, alarmTwo]).1 = false := by
  refine ⟨rfl, rfl, ?_⟩
  rfl

/-- Claim C3: one reaper pass over a group list holding one group with
an empty snapshot and one with a non-empty snapshot.  The claim requires
the empty group to be reaped (unlinked) and the non-empty group left
entirely untouched; the code instead keeps both records and overwrites
both snapshots — including the non-empty one — with the empty list,
because the emptiness test is an assignment. -/
theorem C3_reaper_reaps_nothing_and_clobbers_snapshots :
    alarm_group_display_removal_pass [groupEmpty, groupFull] =
      [{ group_id := 1, thread_id := 11, display_list := [] },
       { group_id := 2, thread_id := 12, display_list := [] }] ∧
    (alarm_group_display_removal_pass [groupEmpty, groupFull]).length = 2 := by
  constructor <;> rfl

/-- Claim C4: with a registry holding exactly the alarm with id 1,
Cancel_Alarm(1) removes it, and then the confirmation `printf` calls
`find_alarm(1)` on the now-empty list, gets `NULL`, and dereferences it:
the confirmation path faults instead of printing, contrary to the
claim. -/
theorem C4_cancel_confirmation_derefs_null :
    cancel_alarm 1 [alarmOne] = ([], CancelOutcome.nullDeref) := by
  rfl

/-! ### Scheduler and main-thread interaction (claims C1/C5)

A small-step model of the interaction between `alarm_thread` (src lines
135-207) and the Start_Alarm branch of `main`.  The state carries the
shared registry, the `current_alarm` sentinel, the alarm the scheduler
has detached and sleeps on (if any), and the sequence of fired alarms. -/

structure SchedState where
  registry : List Alarm
  current_alarm : Int
  sleeping : Option Alarm
  fired : List Alarm
deriving Repr, DecidableEq

/-- The Start_Alarm branch of `main` (src lines 459-492): splice the new
alarm into the registry in expiry order.  It touches neither
`current_alarm` nor the condition variable. -/
def ev_start (a : Alarm) (s : SchedState) : SchedState :=
  { s with registry := insertSorted a s.registry }

/-- The top of one `alarm_thread` iteration (src lines 159-199): when
not already sleeping and the registry is non-empty, detach the head; if
its expiry is in the future, record it in `current_alarm` and start the
timed wait, otherwise it has already expired and fires at once. -/
def ev_detach (now : Int) (s : SchedState) : SchedState :=
  match s.sleeping, s.registry with
  | none, a :: rest =>
    if a.time > now then
      { s with registry := rest, sleeping := some a, current_alarm := a.time }
    else
      { s with registry := rest, current_alarm := 0, fired := s.fired ++ [a] }
  | _, _ => s

/-- The `pthread_cond_timedwait` timeout (src lines 181-205): once the
absolute deadline is reached — and only while the inner loop condition
`current_alarm == alarm->time` still held — the wait returns
`ETIMEDOUT`, the alarm is marked expired, printed and freed. -/
def ev_timeout (now : Int) (s : SchedState) : SchedState :=
  match s.sleeping with
  | some a =>
    if s.current_alarm = a.time ∧ a.time ≤ now then
      { s with sleeping := none, current_alarm := 0, fired := s.fired ++ [a] }
    else s
  | none => s

/-- A premature wakeup of the timed wait (src lines 181-196): if a
signal arrives while `current_alarm` no longer equals the detached
alarm's expiry, the wait is abandoned and the alarm reinserted through
`alarm_insert`.  If `current_alarm` is unchanged the loop just waits
again, so the state is unchanged. -/
def ev_wake (s : SchedState) : SchedState :=
  match s.sleeping with
  | some a =>
    if s.current_alarm = a.time then s
    else
      let r := alarm_insert a s.registry s.current_alarm
      { registry := r.registry, current_alarm := r.current_alarm,
        sleeping := none, fired := s.fired }
  | none => s

/-- The initial state: empty registry, `current_alarm = 0`, scheduler
idle, nothing fired. -/
def schedInit : SchedState :=
  { registry := [], current_alarm := 0, sleeping := none, fired := [] }

/-- Alarm A of the specification's own test scenario: started at time 0
for 10 seconds, expiry 10. -/
def alarmA : Alarm :=
  { seconds := 10, time := 10, message := "A", alarm_id := 1, group_id := 1, active := true }

/-- Alarm B of the specification's own test scenario: started at time 2
for 1 second, expiry 3. -/
def alarmB : Alarm :=
  { seconds := 1, time := 3, message := "B", alarm_id := 2, group_id := 1, active := true }

/-- Claim C5: the specification's own scenario — start A (expiry 10),
the scheduler detaches it and sleeps, then start B (expiry 3) — fired in
the order A then B, i.e. an alarm fired after another alarm whose expiry
is strictly earlier.  Because the Start_Alarm path never changes
`current_alarm` and never signals, a wakeup while B is pending leaves
the state unchanged (the scheduler cannot pick B up), and the timed wait
runs to its timeout at time 10, firing A first; B then fires late.  The
first conjunct records that `ev_start` preserves `current_alarm` and the
sleeping alarm for every input. -/
theorem C5_fires_out_of_expiry_order :
    (∀ (a : Alarm) (s : SchedState),
      (ev_start a s).current_alarm = s.current_alarm ∧
      (ev_start a s).sleeping = s.sleeping ∧ (ev_start a s).fired = s.fired) ∧
    ev_wake (ev_start alarmB (ev_detach 0 (ev_start alarmA schedInit))) =
      ev_start alarmB (ev_detach 0 (ev_start alarmA schedInit)) ∧
    (ev_detach 10 (ev_timeout 10 (ev_start alarmB
        (ev_detach 0 (ev_start alarmA schedInit))))).fired = [alarmA, alarmB] ∧
    alarmB.time < alarmA.time := by
  refine ⟨fun a s => ⟨rfl, rfl, rfl⟩, by decide, by decide, by decide⟩

/-! ### Display worker snapshot scan (claim C6) -/

/-- What `display_alarm_thread` does with one snapshot entry (src lines
258-281): drop it with a "stopped printing" notice, render it, drop it
because its group moved, refresh a changed message, or keep it as is
(the fall-through, which copies the live `active` flag). -/
inductive EntryAction where
  | dropNotFound : EntryAction
  | render : EntryAction
  | dropMoved : EntryAction
  | refreshMessage : String → EntryAction
  | keep : EntryAction
deriving Repr, DecidableEq

/-- The branch cascade of `display_alarm_thread` for one snapshot entry
`e` (src lines 258-281): look the id up in the live registry; `NULL`
drops the entry; same group and active renders; same id, different
group and active drops it ("stopped displaying"); same group, changed
message and active refreshes the copy; everything else falls through and
keeps the entry.  In the moved-group branch the C source computes
`current->group_id != temp->group_id & temp->active == 1`, where `&`
binds looser than `!=` and `==`, so the branch fires only when the live
alarm is also active. -/
def display_scan_entry (e : Alarm) (registry : List Alarm) : EntryAction :=
  match find_alarm e.alarm_id registry with
  | none => EntryAction.dropNotFound
  | some temp =>
    if e.group_id = temp.group_id ∧ e.alarm_id = temp.alarm_id ∧ temp.active then
      EntryAction.render
    else if e.alarm_id = temp.alarm_id ∧ e.group_id ≠ temp.group_id ∧ temp.active then
      EntryAction.dropMoved
    else if e.group_id = temp.group_id ∧ e.message ≠ temp.message ∧ temp.active then
      EntryAction.refreshMessage temp.message
    else EntryAction.keep

/-- A snapshot entry recorded under group 1. -/
def snapOne : Alarm :=
  { seconds := 10, time := 10, message := "one", alarm_id := 1, group_id := 1, active := true }

/-- The live alarm with id 1 after moving to group 2 while suspended. -/
def liveMovedSuspended : Alarm :=
  { seconds := 10, time := 10, message := "one", alarm_id := 1, group_id := 2, active := false }

/-- The live alarm with id 1 after moving to group 2 while active. -/
def liveMovedActive : Alarm :=
  { seconds := 10, time := 10, message := "one", alarm_id := 1, group_id := 2, active := true }

/-- Claim C6 counterexample: the live alarm with id 1 is present, now
carries group 2 while the snapshot entry carries group 1, and is
suspended; the worker keeps the entry instead of dropping it, so the
drop is not unconditional. -/
theorem C6_suspended_moved_entry_kept :
    find_alarm snapOne.alarm_id [liveMovedSuspended] = some liveMovedSuspended ∧
    liveMovedSuspended.group_id ≠ snapOne.group_id ∧
    liveMovedSuspended.active = false ∧
    display_scan_entry snapOne [liveMovedSuspended] = EntryAction.keep := by
  refine ⟨rfl, by decide, rfl, rfl⟩

/-- Looking up an id with `find_alarm` returns an alarm carrying that
id. -/
theorem find_alarm_some_id (id : Int) (l : List Alarm) (t : Alarm)
    (h : find_alarm id l = some t) : t.alarm_id = id := by
  induction l with
  | nil => simp [find_alarm] at h
  | cons a rest ih =>
    by_cases ha : a.alarm_id = id
    · simp [find_alarm, ha] at h
      rw [← h]; exact ha
    · simp [find_alarm, ha] at h
      exact ih h

/-- Claim C6 (amended): when a snapshot entry's id is still present in
the registry but the live alarm carries a different group id, the worker
drops the entry with a "stopped displaying" notice only if the live
alarm is active; if the live alarm is suspended, the entry is kept. -/
theorem C6_moved_entry_dropped_only_if_active (e t : Alarm) (reg : List Alarm)
    (hfind : find_alarm e.alarm_id reg = some t)
    (hg : e.group_id ≠ t.group_id) :
    (t.active = true → display_scan_entry e reg = EntryAction.dropMoved) ∧
    (t.active = false → display_scan_entry e reg = EntryAction.keep) := by
  have hid : t.alarm_id = e.alarm_id := find_alarm_some_id _ _ _ hfind
  unfold display_scan_entry
  rw [hfind]
  constructor
  · intro hact
    simp [hg, hact, hid]
  · intro hact
    simp [hg, hact]

/-- Witness for C6: at the concrete moved-and-active live alarm the
amended theorem yields the drop. -/
theorem C6_moved_entry_dropped_witness :
    display_scan_entry snapOne [liveMovedActive] = EntryAction.dropMoved :=
  (C6_moved_entry_dropped_only_if_active snapOne liveMovedActive [liveMovedActive]
    rfl (by decide)).1 rfl

/-! ### Reader/Writer gate (claim C7)

Semaphores are modelled by their counter values; a `sem_wait` on a zero
counter blocks, which surfaces as `none` (the call cannot complete until
some other thread posts). -/

structure RWState where
  mutexS : Nat
  rwS : Nat
  reader_count : Int
deriving Repr, DecidableEq

/-- A `sem_wait`: decrement if positive, block (`none`) on zero. -/
def semWait (v : Nat) : Option Nat := if 0 < v then some (v - 1) else none

/-- A `sem_post`: increment the counter. -/
def semPost (v : Nat) : Nat := v + 1

/-- The `start_read` routine (src lines 65-72): `sem_wait(&mutex)`,
increment `reader_count`, and if this is the first reader,
`sem_wait(&rw_mutex)`.  The routine never posts `mutex` back. -/
def start_read (s : RWState) : Option RWState :=
  match semWait s.mutexS with
  | none => none
  | some m =>
    let rc := s.reader_count + 1
    if rc = 1 then
      match semWait s.rwS with
      | none => none
      | some rw => some { mutexS := m, rwS := rw, reader_count := rc }
    else
      some { mutexS := m, rwS := s.rwS, reader_count := rc }

/-- The `stop_read` routine (src lines 74-80): decrement
`reader_count`, post `rw_mutex` when it reaches zero, and post
`mutex`. -/
def stop_read (s : RWState) : RWState :=
  let rc := s.reader_count - 1
  { mutexS := semPost s.mutexS,
    rwS := if rc = 0 then semPost s.rwS else s.rwS,
    reader_count := rc }

/-- The `start_write` routine (src lines 82-84): `sem_wait(&rw_mutex)`. -/
def start_write (s : RWState) : Option RWState :=
  match semWait s.rwS with
  | none => none
  | some rw => some { s with rwS := rw }

/-- The `stop_write` routine (src lines 86-88): `sem_post(&rw_mutex)`. -/
def stop_write (s : RWState) : RWState := { s with rwS := semPost s.rwS }

/-- The state set up by `main` (src lines 426-427): both semaphores
initialised to 1, no readers. -/
def rwInit : RWState := { mutexS := 1, rwS := 1, reader_count := 0 }

/-- The state after the first reader completes `start_read`: both
semaphore counters are zero. -/
def rwOneReader : RWState := { mutexS := 0, rwS := 0, reader_count := 1 }

/-- Claim C7: after the first reader completes `start_read` (and before
it calls `stop_read`), a second reader's `start_read` blocks on the
reader-count semaphore — `start_read` leaves `mutex` at zero — so no
further reader can complete `start_read` while one holds read access,
contrary to the claim of unlimited concurrent readers.  A writer is
indeed blocked too, and only after the first reader's `stop_read` can
the second reader enter. -/
theorem C7_second_reader_cannot_enter :
    start_read rwInit = some rwOneReader ∧
    start_read rwOneReader = none ∧
    start_write rwOneReader = none ∧
    stop_read rwOneReader = rwInit ∧
    start_read (stop_read rwOneReader) = some rwOneReader := by
  refine ⟨rfl, rfl, rfl, by decide, by decide⟩

/-! ### Frame properties of suspend and reactivate (claims C8, C9, C10) -/

/-- An id absent from the list is exactly a `NULL` result of
`find_alarm`. -/
theorem find_alarm_none_iff (id : Int) (l : List Alarm) :
    find_alarm id l = none ↔ ∀ a ∈ l, a.alarm_id ≠ id := by
  induction l with
  | nil => simp [find_alarm]
  | cons a rest ih =>
    by_cases ha : a.alarm_id = id <;> simp [find_alarm, ha, ih]

/-- On a list whose first entry with the target id is `a`,
`suspend_alarm` rewrites exactly that entry (clearing `active` when it
was set) and reports whether it suspended anything. -/
theorem suspend_alarm_first (pre post : List Alarm) (a : Alarm)
    (hpre : ∀ b ∈ pre, b.alarm_id ≠ a.alarm_id) :
    suspend_alarm a.alarm_id (pre ++ a :: post) =
      (pre ++ (if a.active then { a with active := false } else a) :: post,
       a.active) := by
  induction pre with
  | nil => cases ha : a.active <;> simp [suspend_alarm, ha]
  | cons b rest ih =>
    have hb : b.alarm_id ≠ a.alarm_id := hpre b (by simp)
    have ih2 := ih (fun c hc => hpre c (by simp [hc]))
    simp [suspend_alarm, hb, ih2]

/-- On a list whose first entry with the target id is `a`,
`reactivate_alarm` rewrites exactly that entry (setting `active` when it
was clear) and reports whether it reactivated anything. -/
theorem reactivate_alarm_first (pre post : List Alarm) (a : Alarm)
    (hpre : ∀ b ∈ pre, b.alarm_id ≠ a.alarm_id) :
    reactivate_alarm a.alarm_id (pre ++ a :: post) =
      (pre ++ (if a.active then a else { a with active := true }) :: post,
       !a.active) := by
  induction pre with
  | nil => cases ha : a.active <;> simp [reactivate_alarm, ha]
  | cons b rest ih =>
    have hb : b.alarm_id ≠ a.alarm_id := hpre b (by simp)
    have ih2 := ih (fun c hc => hpre c (by simp [hc]))
    simp [reactivate_alarm, hb, ih2]

/-- Suspending an absent id leaves the list untouched and reports the
notice path. -/
theorem suspend_alarm_not_found (id : Int) (l : List Alarm)
    (h : ∀ a ∈ l, a.alarm_id ≠ id) : suspend_alarm id l = (l, false) := by
  induction l with
  | nil => rfl
  | cons a rest ih =>
    have ha : a.alarm_id ≠ id := h a (by simp)
    simp [suspend_alarm, ha, ih (fun c hc => h c (by simp [hc]))]

/-- Reactivating an absent id leaves the list untouched and reports the
notice path. -/
theorem reactivate_alarm_not_found (id : Int) (l : List Alarm)
    (h : ∀ a ∈ l, a.alarm_id ≠ id) : reactivate_alarm id l = (l, false) := by
  induction l with
  | nil => rfl
  | cons a rest ih =>
    have ha : a.alarm_id ≠ id := h a (by simp)
    simp [reactivate_alarm, ha, ih (fun c hc => h c (by simp [hc]))]

/-- Removing an absent id leaves the list untouched and reports
failure. -/
theorem remove_alarm_not_found (id : Int) (l : List Alarm)
    (h : ∀ a ∈ l, a.alarm_id ≠ id) : remove_alarm id l = (false, l) := by
  induction l with
  | nil => rfl
  | cons a rest ih =>
    have ha : a.alarm_id ≠ id := h a (by simp)
    simp [remove_alarm, ha, ih (fun c hc => h c (by simp [hc]))]

/-- Changing an absent id leaves the list untouched and reports the "not
found" path. -/
theorem change_alarm_not_found (id gid secs : Int) (msg : String) (now : Int)
    (l : List Alarm) (h : ∀ a ∈ l, a.alarm_id ≠ id) :
    change_alarm id gid secs msg now l = (l, false) := by
  induction l with
  | nil => rfl
  | cons a rest ih =>
    have ha : a.alarm_id ≠ id := h a (by simp)
    simp [change_alarm, ha, ih (fun c hc => h c (by simp [hc]))]

/-- Claim C8: on a registry whose first entry with the target id is `a`
(`pre` holds no entry with that id), suspending when `a` is active
yields exactly the same registry with only that entry's `active` flag
cleared — `pre`, `post` and the other five fields of `a` are untouched —
and reactivating when `a` is inactive sets only that flag; suspend on an
already-suspended entry and reactivate on an already-active entry leave
the registry unchanged and take the notice path, as do both operations
on a missing id. -/
theorem C8_suspend_reactivate_touch_only_active_flag
    (pre post : List Alarm) (a : Alarm) (id : Int) (reg : List Alarm)
    (hpre : ∀ b ∈ pre, b.alarm_id ≠ a.alarm_id) :
    (a.active = true →
      suspend_alarm a.alarm_id (pre ++ a :: post) =
        (pre ++ { a with active := false } :: post, true)) ∧
    (a.active = false →
      suspend_alarm a.alarm_id (pre ++ a :: post) = (pre ++ a :: post, false)) ∧
    (a.active = false →
      reactivate_alarm a.alarm_id (pre ++ a :: post) =
        (pre ++ { a with active := true } :: post, true)) ∧
    (a.active = true →
      reactivate_alarm a.alarm_id (pre ++ a :: post) = (pre ++ a :: post, false)) ∧
    (find_alarm id reg = none →
      suspend_alarm id reg = (reg, false) ∧ reactivate_alarm id reg = (reg, false)) := by
  refine ⟨?_, ?_, ?_, ?_, ?_⟩
  · intro hact; rw [suspend_alarm_first pre post a hpre]; simp [hact]
  · intro hact; rw [suspend_alarm_first pre post a hpre]; simp [hact]
  · intro hact; rw [reactivate_alarm_first pre post a hpre]; simp [hact]
  · intro hact; rw [reactivate_alarm_first pre post a hpre]; simp [hact]
  · intro hnone
    have h2 := (find_alarm_none_iff id reg).mp hnone
    exact ⟨suspend_alarm_not_found id reg h2, reactivate_alarm_not_found id reg h2⟩

/-- Witness for C8 at a concrete registry: id 1 sits behind id 2;
suspending clears only its flag, reactivating it while active is a
no-op, and both operations on the missing id 9 leave the registry
alone. -/
theorem C8_suspend_reactivate_witness :
    suspend_alarm 1 [alarmTwo, alarmOne] =
      ([alarmTwo, { alarmOne with active := false }], true) ∧
    reactivate_alarm 1 [alarmTwo, alarmOne] = ([alarmTwo, alarmOne], false) ∧
    suspend_alarm 9 [alarmTwo] = ([alarmTwo], false) ∧
    reactivate_alarm 9 [alarmTwo] = ([alarmTwo], false) := by
  have h := C8_suspend_reactivate_touch_only_active_flag [alarmTwo] [] alarmOne 9 [alarmTwo]
    (by decide)
  exact ⟨h.1 rfl, h.2.2.2.1 rfl, (h.2.2.2.2 rfl).1, (h.2.2.2.2 rfl).2⟩

/-- Claim C9: for an id absent from the registry, Change_Alarm,
Cancel_Alarm, Suspend_Alarm and Reactivate_Alarm each report the error
path and return the registry exactly as it was — same alarms, same
fields, same order. -/
theorem C9_unknown_id_reports_and_preserves_registry
    (reg : List Alarm) (id gid secs now : Int) (msg : String)
    (h : find_alarm id reg = none) :
    change_alarm id gid secs msg now reg = (reg, false) ∧
    cancel_alarm id reg = (reg, CancelOutcome.notFound) ∧
    suspend_alarm id reg = (reg, false) ∧
    reactivate_alarm id reg = (reg, false) := by
  have h2 := (find_alarm_none_iff id reg).mp h
  refine ⟨change_alarm_not_found id gid secs msg now reg h2, ?_,
    suspend_alarm_not_found id reg h2, reactivate_alarm_not_found id reg h2⟩
  simp [cancel_alarm, remove_alarm_not_found id reg h2]

/-- Witness for C9 at the concrete registry `[alarmOne]` and the absent
id 5. -/
theorem C9_unknown_id_witness :
    change_alarm 5 1 3 "m" 0 [alarmOne] = ([alarmOne], false) ∧
    cancel_alarm 5 [alarmOne] = ([alarmOne], CancelOutcome.notFound) ∧
    suspend_alarm 5 [alarmOne] = ([alarmOne], false) ∧
    reactivate_alarm 5 [alarmOne] = ([alarmOne], false) :=
  C9_unknown_id_reports_and_preserves_registry [alarmOne] 5 1 3 0 "m" rfl

/-! ### Duplicate alarm ids under Start_Alarm (claim C10) -/

/-- The number of registry entries carrying a given id. -/
def countId (id : Int) : List Alarm → Nat
  | [] => 0
  | a :: rest => (if a.alarm_id = id then 1 else 0) + countId id rest

/-- Splicing adds exactly the new alarm: membership in the result is
membership in the old list or being the new alarm. -/
theorem mem_insertSorted (a u : Alarm) (l : List Alarm) :
    u ∈ insertSorted a l ↔ u = a ∨ u ∈ l := by
  induction l with
  | nil => simp [insertSorted]
  | cons b rest ih =>
    by_cases hb : b.time < a.time
    · simp [insertSorted, hb, ih]
      tauto
    · simp [insertSorted, hb]

/-- Splicing increments the count of the new alarm's id and leaves every
other count as determined by the entry itself. -/
theorem countId_insertSorted (id : Int) (a : Alarm) (l : List Alarm) :
    countId id (insertSorted a l) =
      countId id l + (if a.alarm_id = id then 1 else 0) := by
  induction l with
  | nil => simp [insertSorted, countId]
  | cons b rest ih =>
    by_cases hb : b.time < a.time
    · simp only [insertSorted, if_pos hb, countId, ih]
      omega
    · simp only [insertSorted, if_neg hb, countId]
      omega

/-- The boolean ordering check agrees with pairwise ordering by expiry. -/
theorem sortedByTime_iff_pairwise (l : List Alarm) :
    sortedByTime l = true ↔ List.Pairwise (fun x y => x.time ≤ y.time) l := by
  induction l with
  | nil => simp [sortedByTime]
  | cons a rest ih =>
    cases rest with
    | nil => simp [sortedByTime]
    | cons b rest2 =>
      rw [List.pairwise_cons]
      constructor
      · intro h
        have h1 : a.time ≤ b.time := by
          simp [sortedByTime] at h; exact h.1
        have h2 : sortedByTime (b :: rest2) = true := by
          simp [sortedByTime] at h; exact h.2
        have hp : List.Pairwise (fun x y => x.time ≤ y.time) (b :: rest2) := ih.mp h2
        refine ⟨?_, hp⟩
        intro u hu
        rcases List.mem_cons.mp hu with rfl | hu2
        · exact h1
        · exact le_trans h1 ((List.pairwise_cons.mp hp).1 u hu2)
      · intro h
        have h1 : a.time ≤ b.time := h.1 b (by simp)
        have h2 : sortedByTime (b :: rest2) = true := ih.mpr h.2
        simp [sortedByTime, h1, h2]

/-- Splicing preserves the ascending-expiry invariant. -/
theorem sortedByTime_insertSorted (a : Alarm) (l : List Alarm)
    (h : sortedByTime l = true) : sortedByTime (insertSorted a l) = true := by
  rw [sortedByTime_iff_pairwise] at h ⊢
  induction l with
  | nil => simp [insertSorted]
  | cons b rest ih =>
    rcases List.pairwise_cons.mp h with ⟨hb, hrest⟩
    by_cases hba : b.time < a.time
    · simp only [insertSorted, if_pos hba]
      refine List.pairwise_cons.mpr ⟨?_, ih hrest⟩
      intro u hu
      rcases (mem_insertSorted a u rest).mp hu with rfl | hu2
      · exact le_of_lt hba
      · exact hb u hu2
    · simp only [insertSorted, if_neg hba]
      push_neg at hba
      refine List.pairwise_cons.mpr ⟨?_, h⟩
      intro u hu
      rcases List.mem_cons.mp hu with rfl | hu2
      · exact hba
      · exact le_trans hba (hb u hu2)

/-- A successful `find_alarm` splits the list at the first entry with
the target id: everything before it carries a different id. -/
theorem find_alarm_first (id : Int) (l : List Alarm) (t : Alarm)
    (h : find_alarm id l = some t) :
    ∃ pre post, l = pre ++ t :: post ∧ ∀ b ∈ pre, b.alarm_id ≠ id := by
  induction l with
  | nil => simp [find_alarm] at h
  | cons a rest ih =>
    by_cases ha : a.alarm_id = id
    · simp [find_alarm, ha] at h
      exact ⟨[], rest, by simp [h], by simp⟩
    · simp [find_alarm, ha] at h
      obtain ⟨pre, post, heq, hpre⟩ := ih h
      refine ⟨a :: pre, post, by simp [heq], ?_⟩
      intro b hb
      rcases List.mem_cons.mp hb with rfl | hb2
      · exact ha
      · exact hpre b hb2

/-- Claim C10: Start_Alarm never checks id uniqueness — splicing an
alarm whose id is already present leaves both entries in the registry
(the count of that id grows by one and is at least two) — and on the
resulting sorted registry `find_alarm` returns an entry with that id
whose expiry is least among all entries carrying the id, i.e. the one
that comes first in ascending-expiry order, which is the entry the
change/cancel/suspend/reactivate paths then operate on. -/
theorem C10_duplicate_ids_coexist_and_find_takes_first
    (reg : List Alarm) (a : Alarm)
    (hpresent : 1 ≤ countId a.alarm_id reg) (hsort : sortedByTime reg = true) :
    countId a.alarm_id (insertSorted a reg) = countId a.alarm_id reg + 1 ∧
    2 ≤ countId a.alarm_id (insertSorted a reg) ∧
    find_alarm a.alarm_id (insertSorted a reg) ≠ none ∧
    (∀ t, find_alarm a.alarm_id (insertSorted a reg) = some t →
      t.alarm_id = a.alarm_id ∧
      ∀ u ∈ insertSorted a reg, u.alarm_id = a.alarm_id → t.time ≤ u.time) := by
  have hcount : countId a.alarm_id (insertSorted a reg) =
      countId a.alarm_id reg + 1 := by
    rw [countId_insertSorted]; simp
  refine ⟨hcount, by omega, ?_, ?_⟩
  · intro hnone
    have h2 := (find_alarm_none_iff a.alarm_id (insertSorted a reg)).mp hnone
    exact h2 a ((mem_insertSorted a a reg).mpr (Or.inl rfl)) rfl
  · intro t hfind
    have hid : t.alarm_id = a.alarm_id := find_alarm_some_id _ _ _ hfind
    refine ⟨hid, ?_⟩
    obtain ⟨pre, post, heq, hpre⟩ := find_alarm_first _ _ _ hfind
    have hsorted2 : List.Pairwise (fun x y => x.time ≤ y.time) (insertSorted a reg) :=
      (sortedByTime_iff_pairwise _).mp (sortedByTime_insertSorted a reg hsort)
    rw [heq] at hsorted2
    rcases List.pairwise_append.mp hsorted2 with ⟨hpair_pre, hpair_cons, hcross⟩
    intro u hu huid
    rw [heq] at hu
    rcases List.mem_append.mp hu with hu_pre | hu_cons
    · exact absurd huid (hpre u hu_pre)
    · rcases List.mem_cons.mp hu_cons with rfl | hu_post
      · exact le_refl _
      · exact (List.pairwise_cons.mp hpair_cons).1 u hu_post

/-- A second alarm with id 1 but expiry 5, earlier than `alarmOne`. -/
def alarmOneDup : Alarm :=
  { seconds := 5, time := 5, message := "dup", alarm_id := 1, group_id := 2, active := true }

/-- Witness for C10: inserting a duplicate of id 1 into `[alarmOne]`
makes the count of id 1 reach two. -/
theorem C10_duplicate_ids_witness :
    countId alarmOneDup.alarm_id (insertSorted alarmOneDup [alarmOne]) =
      countId alarmOneDup.alarm_id [alarmOne] + 1 ∧
    2 ≤ countId alarmOneDup.alarm_id (insertSorted alarmOneDup [alarmOne]) :=
  ⟨(C10_duplicate_ids_coexist_and_find_takes_first [alarmOne] alarmOneDup
      (by decide) rfl).1,
   (C10_duplicate_ids_coexist_and_find_takes_first [alarmOne] alarmOneDup
      (by decide) rfl).2.1⟩
